import Mathlib

/-!
# DeckPilot core — shallow embedding and verification

This file embeds the core data structures and algorithms of the DeckPilot
panel hierarchy and dispatch engine (`deckpilot/elements/panel_nodes.py`,
`deckpilot/comm/event_bus.py`, `deckpilot/plugins/manager.py`,
`deckpilot/elements/panel_registry.py`) as executable Lean definitions and
proves, or refutes, the specification's testable properties against them.
-/

namespace DeckPilot

/-- The kind of an ordinary child item of a panel: a leaf `Button` or a
sub-`Panel` (`panel_nodes.py`, classes `Button` and `Panel`). -/
inductive ItemKind where
  | button
  | panel
  deriving DecidableEq, Repr

/-- An item that can occupy a key slot on a page.  `ordinary name kind` is a
member of the panel's `items` mapping (a `Button` or child `Panel`, identified
by its sibling-unique `name`, abstracted as a `Nat`); the other three
constructors are the synthesized navigation buttons `ParentButton`,
`NextPageButton` and `PreviousPageButton` of `panel_nodes.py`, which are
injected into pages but are not members of `items`. -/
inductive PItem where
  | ordinary (name : Nat) (kind : ItemKind)
  | parentBtn
  | nextBtn
  | prevBtn
  deriving DecidableEq, Repr

/-- Is this page entry one of the three synthesized navigation buttons? -/
def PItem.isNav : PItem → Bool
  | .ordinary _ _ => false
  | _ => true

/-- Inner class `PanelPage.PageItem`: a `(position, item)` pair stored on a page
(`panel_nodes.py`, inner class `PageItem` of `PanelPage`). -/
structure PageItem where
  position : Nat
  item : PItem
  deriving DecidableEq, Repr

/-- Class `PanelPage`: one fixed-capacity page of key-slot assignments
(`panel_nodes.py`, class `PanelPage`).  The source constructor sets
`self.capacity = 15`, `self.cols = 5`, `self.rows = 3`; capacity is the
constant `PanelPage.capacity` below. -/
structure PanelPage where
  page_number : Nat
  items : List PageItem
  deriving DecidableEq, Repr

namespace PanelPage

/-- Source: `self.capacity = 15` in `PanelPage.__init__`. -/
def capacity : Nat := 15

/-- Source: `self.cols = 5` in `PanelPage.__init__`. -/
def cols : Nat := 5

/-- Property `n_items`: `len(self.items)`. -/
def n_items (p : PanelPage) : Nat := p.items.length

/-- Property `space_left`: `self.capacity - len(self.items)`. -/
def space_left (p : PanelPage) : Nat := capacity - p.items.length

/-- Property `is_full`: `self.space_left == 0`. -/
def is_full (p : PanelPage) : Prop := p.space_left = 0

instance : DecidablePred is_full := fun p => inferInstanceAs (Decidable (_ = 0))

/-- Property `is_empty`: `self.space_left == self.capacity`. -/
def is_empty (p : PanelPage) : Prop := p.space_left = capacity

instance : DecidablePred is_empty := fun p => inferInstanceAs (Decidable (_ = _))

/-- Method `PanelPage.push`: raises `ValueError` (modelled as `none`) when
`self.space_left <= 0`, else appends `PageItem(len(self.items), item)`. -/
def push (p : PanelPage) (item : PItem) : Option PanelPage :=
  if p.space_left ≤ 0 then
    none
  else
    some { p with items := p.items ++ [⟨p.items.length, item⟩] }

/-- Method `PanelPage.get_item`: returns the first stored item whose `position`
equals `position`; raises `ValueError` (modelled as `none`) when no entry
matches. -/
def get_item (p : PanelPage) (position : Nat) : Option PItem :=
  (p.items.find? (fun pi => pi.position = position)).map (·.item)

/-- Method `PanelPage.get_item_position`: position of the first entry holding
`item`; `ValueError` modelled as `none`. -/
def get_item_position (p : PanelPage) (item : PItem) : Option Nat :=
  (p.items.find? (fun pi => pi.item = item)).map (·.position)

/-- Method `PanelPage.get_item_by_2d_position`: `index = y * self.cols + x`. -/
def get_item_by_2d_position (p : PanelPage) (x y : Nat) : Option PItem :=
  p.get_item (y * cols + x)

end PanelPage

/-- One iteration state step of `Panel._create_pages` (`panel_nodes.py`).

The Python loop body mutates the page that is the last element of `pages`;
here `done` holds the completed earlier pages and `cur` the page currently
being filled, so the Python `pages` list is `done ++ [cur]` and
`len(pages) = done.length + 1`.  The loop runs exactly `len(items)` times
(`for i in range(len(items))`), popping the head of `items_to_add` each time;
`items_to_add.pop(0)` on an empty list (IndexError) and a failing
`PanelPage.push` (ValueError) are modelled as `none`.  The third component of
the result is the final `items_to_add` list, which the source discards. -/
def createPagesLoop :
    Nat → List PItem → List PanelPage → PanelPage →
      Option (List PanelPage × PanelPage × List PItem)
  | 0, toAdd, done, cur => some (done, cur, toAdd)
  | n + 1, toAdd, done, cur =>
    match toAdd with
    | [] => none
    | item :: rest =>
      -- `if len(pages) > 1 and page.is_empty: page.push(PreviousPageButton(...))`
      (if done.length + 1 > 1 ∧ cur.is_empty then cur.push .prevBtn else some cur).bind
        fun cur1 =>
      -- `if page.space_left > 1 or (page.space_left == 1 and len(items_to_add) == 0):`
      --   `page.push(item)`
      -- `else: page.push(NextPageButton(...)); items_to_add.insert(0, item)`
      (if cur1.space_left > 1 ∨ (cur1.space_left = 1 ∧ rest.length = 0) then
          (cur1.push item).map (fun c => (c, rest))
        else
          (cur1.push .nextBtn).map (fun c => (c, item :: rest))).bind
        fun cr =>
      -- `if page.is_full and len(items_to_add) != 0: page = PanelPage(len(pages)); pages.append(page)`
      if cr.1.is_full ∧ cr.2.length ≠ 0 then
        createPagesLoop n cr.2 (done ++ [cr.1]) ⟨done.length + 1, []⟩
      else
        createPagesLoop n cr.2 done cr.1

/-- Method `Panel._create_pages`: starts with page 0, pushes a `ParentButton` onto it
when the panel has a parent, then runs the placement loop over the panel's
items in insertion order and returns `pages` (the leftover `items_to_add`, if
any, is discarded exactly as in the source). -/
def createPages (hasParent : Bool) (items : List PItem) :
    Option (List PanelPage) :=
  (if hasParent then PanelPage.push ⟨0, []⟩ .parentBtn else some ⟨0, []⟩).bind
    fun page0 =>
  (createPagesLoop items.length items [] page0).map
    fun r => r.1 ++ [r.2.1]

/-- The leftover `items_to_add` after `Panel._create_pages` finishes its loop;
the source silently drops these items. -/
def createPagesLeftover (hasParent : Bool) (items : List PItem) :
    Option (List PItem) :=
  (if hasParent then PanelPage.push ⟨0, []⟩ .parentBtn else some ⟨0, []⟩).bind
    fun page0 =>
  (createPagesLoop items.length items [] page0).map
    fun r => r.2.2

/-- The non-navigation items found across a list of pages, in page order. -/
def nonNavItems (pages : List PanelPage) : List PItem :=
  (pages.flatMap (fun pg => pg.items.map (·.item))).filter (fun it => ¬ it.isNav)

/-- A canonical list of `n` child buttons named `0, 1, …, n-1`. -/
def demoItems (n : Nat) : List PItem :=
  (List.range n).map (fun i => PItem.ordinary i .button)

/-- The page entries obtained by placing `l` consecutively starting at
position `k` (what repeated `PanelPage.push` produces). -/
def enumFrom (k : Nat) : List PItem → List PageItem
  | [] => []
  | x :: xs => ⟨k, x⟩ :: enumFrom (k + 1) xs

/-- The spec's page invariant: at most `capacity` entries, and the stored
`position` values are exactly the contiguous range `0..len(page)-1` in
insertion order. -/
def PageOK (pg : PanelPage) : Prop :=
  pg.items.length ≤ PanelPage.capacity ∧
  pg.items.map PageItem.position = List.range pg.items.length

/-- One iteration of the `_create_pages` loop viewed only through list
lengths: the loop's branch conditions depend only on `len(items_to_add)`
(`t`), `len(pages) = done.length + 1` (`d` completed pages) and
`len(page.items)` (`c`), never on the identity of the items.  Returns the
next `(t, d, c)`. -/
def absStepAfterPrev (t d c1 : Nat) : Nat × Nat × Nat :=
  if PanelPage.capacity - c1 > 1 ∨ (PanelPage.capacity - c1 = 1 ∧ t - 1 = 0) then
    if PanelPage.capacity - (c1 + 1) = 0 ∧ t - 1 ≠ 0 then (t - 1, d + 1, 0)
    else (t - 1, d, c1 + 1)
  else
    if PanelPage.capacity - (c1 + 1) = 0 ∧ t ≠ 0 then (t, d + 1, 0)
    else (t, d, c1 + 1)

/-- The full length-abstracted iteration: first the `PreviousPageButton`
insertion (`c1`), then `absStepAfterPrev`. -/
def absStep (t d c : Nat) : Nat × Nat × Nat :=
  absStepAfterPrev t d
    (if d + 1 > 1 ∧ PanelPage.capacity - c = PanelPage.capacity then c + 1 else c)

/-- The number of completed pages (`done.length`) after running the
`_create_pages` loop for `n` iterations on the length-abstracted state. -/
def absLoopD : Nat → Nat → Nat → Nat → Nat
  | 0, _, d, _ => d
  | n + 1, t, d, c => absLoopD n (absStep t d c).1 (absStep t d c).2.1 (absStep t d c).2.2

/-- The number of pages `Panel._create_pages` produces for a panel with
`hasParent` and `n` children (the result of `createPages` has
`done.length + 1` pages; page 0 starts with 1 entry when there is a parent). -/
def pageCount (hasParent : Bool) (n : Nat) : Nat :=
  absLoopD n n 0 (if hasParent then 1 else 0) + 1

/-- The state of one `Panel` (`panel_nodes.py`, class `Panel`) as far as the
pagination, navigation and key-dispatch claims are concerned: `items` is the
insertion-ordered `name -> child` dict (names abstracted as `Nat`, children by
their `ItemKind`), `pages`/`current_page_number`/`active` as in the source,
and `pressed` the `_pressed` flags of the child `Button`s keyed by name (the
write-only `_pressed` flags of the synthesized navigation buttons are not
tracked). -/
structure PanelS where
  hasParent : Bool
  items : List (Nat × ItemKind)
  pages : List PanelPage
  current_page_number : Nat
  active : Bool
  pressed : Nat → Bool

/-- The `items.values()` view handed to `_create_pages`. -/
def itemsOf (items : List (Nat × ItemKind)) : List PItem :=
  items.map (fun x => PItem.ordinary x.1 x.2)

namespace Panel

/-- Method `Panel.next_page`: advances `current_page_number` when
`self.current_page_number < self.n_pages - 1`, else no-op (the page-change
and re-render events carry no further state). -/
def next_page (s : PanelS) : PanelS :=
  if s.current_page_number < s.pages.length - 1 then
    { s with current_page_number := s.current_page_number + 1 }
  else s

/-- Method `Panel.previous_page`: decrements `current_page_number` when
`self.current_page_number > 0`, else no-op. -/
def previous_page (s : PanelS) : PanelS :=
  if s.current_page_number > 0 then
    { s with current_page_number := s.current_page_number - 1 }
  else s

/-- Method `Panel.add_button`: refuses (log only, no exception) when the
name is already a key of `self.items`, else appends the entry; the pages are
not recomputed. -/
def add_button (s : PanelS) (name : Nat) : PanelS :=
  if (s.items.lookup name).isSome then s
  else { s with items := s.items ++ [(name, .button)] }

/-- Method `Panel.add_child`: same policy as `add_button` for a child
panel. -/
def add_child (s : PanelS) (child_name : Nat) : PanelS :=
  if (s.items.lookup child_name).isSome then s
  else { s with items := s.items ++ [(child_name, .panel)] }

end Panel

/-- Model of `KeyDisplay` as returned by `on_item_pressed` /
`on_item_released`: which item it renders and whether the pressed icon is
used (text/icon/margin contents are not load-bearing for the claims). -/
structure KeyDisplayM where
  item : PItem
  pressedIcon : Bool
  deriving DecidableEq, Repr

/-- The externally visible outcome of `Panel._handle_key_released`. -/
inductive ReleaseEffect where
  | noneEff
  | renderKey (key_index : Nat) (display : KeyDisplayM)
  | activateChild (name : Nat)
  | activateParent
  | pageChanged
  deriving DecidableEq, Repr

namespace Panel

/-- Method `Panel._handle_key_pressed`: looks up
`self.pages[self.current_page_number]` (an out-of-range index raises
`IndexError`, modelled `.error`, and is *not* caught by the
`except ValueError` handler), then `current_page.get_item(key_index)`
(whose `ValueError` *is* caught and logged — `.ok` with no state change and
no render).  On success `ITEM_PRESSED` is dispatched to the item: a `Button`
sets `_pressed = True` and returns its pressed `KeyDisplay`; a child `Panel`
and the navigation buttons return a display without tracked state change. -/
def handle_key_pressed (s : PanelS) (key_index : Nat) :
    Except String (PanelS × Option (Nat × KeyDisplayM)) :=
  match s.pages[s.current_page_number]? with
  | none => .error "IndexError"
  | some current_page =>
    match current_page.get_item key_index with
    | none => .ok (s, none)
    | some item =>
      match item with
      | .ordinary name .button =>
        .ok ({ s with pressed := Function.update s.pressed name true },
          some (key_index, ⟨item, true⟩))
      | _ => .ok (s, some (key_index, ⟨item, true⟩))

/-- Method `Panel._handle_key_released`: same lookup structure as
`_handle_key_pressed`.  On success `ITEM_RELEASED` is dispatched: an ordinary
`Button` clears `_pressed` and its returned display is re-rendered; a child
`Panel` is activated (`item.active = True; self.active = False`) and fully
re-rendered; `ParentButton` sends `PANEL_PARENT`, running `go_to_parent`
(no-op without a parent); `NextPageButton`/`PreviousPageButton` send the page
navigation events, running `next_page`/`previous_page`. -/
def handle_key_released (s : PanelS) (key_index : Nat) :
    Except String (PanelS × ReleaseEffect) :=
  match s.pages[s.current_page_number]? with
  | none => .error "IndexError"
  | some current_page =>
    match current_page.get_item key_index with
    | none => .ok (s, .noneEff)
    | some item =>
      match item with
      | .ordinary name .button =>
        .ok ({ s with pressed := Function.update s.pressed name false },
          .renderKey key_index ⟨item, false⟩)
      | .ordinary name .panel =>
        .ok ({ s with active := false }, .activateChild name)
      | .parentBtn =>
        if s.hasParent then .ok ({ s with active := false }, .activateParent)
        else .ok (s, .noneEff)
      | .nextBtn =>
        if s.current_page_number < s.pages.length - 1 then
          .ok (next_page s, .pageChanged)
        else .ok (s, .noneEff)
      | .prevBtn =>
        if s.current_page_number > 0 then
          .ok (previous_page s, .pageChanged)
        else .ok (s, .noneEff)

/-- Method `Panel.on_key_pressed`: delegates to `_handle_key_pressed` only
when the panel is active. -/
def on_key_pressed (s : PanelS) (key_index : Nat) :
    Except String (PanelS × Option (Nat × KeyDisplayM)) :=
  if s.active then handle_key_pressed s key_index else .ok (s, none)

/-- Method `Panel.on_key_released`: delegates to `_handle_key_released` only
when the panel is active. -/
def on_key_released (s : PanelS) (key_index : Nat) :
    Except String (PanelS × ReleaseEffect) :=
  if s.active then handle_key_released s key_index else .ok (s, .noneEff)

end Panel

/-- The operations of the `Panel` state machine that touch
`current_page_number`, `pages` or `items`: page navigation, runtime additions
(`add_button`/`add_child` do not repaginate), `refresh_layout` (which reruns
`_create_pages` on the current items), and the key-dispatch handlers (whose
navigation-button paths call `next_page`/`previous_page`/`go_to_parent`). -/
inductive PanelStep : PanelS → PanelS → Prop where
  | next_page (s : PanelS) : PanelStep s (Panel.next_page s)
  | previous_page (s : PanelS) : PanelStep s (Panel.previous_page s)
  | add_button (s : PanelS) (name : Nat) : PanelStep s (Panel.add_button s name)
  | add_child (s : PanelS) (name : Nat) : PanelStep s (Panel.add_child s name)
  | refresh_layout (s : PanelS) (pgs : List PanelPage)
      (h : createPages s.hasParent (itemsOf s.items) = some pgs) :
      PanelStep s { s with pages := pgs }
  | key_pressed (s : PanelS) (k : Nat) (s2 : PanelS) (eff : Option (Nat × KeyDisplayM))
      (h : Panel.on_key_pressed s k = .ok (s2, eff)) : PanelStep s s2
  | key_released (s : PanelS) (k : Nat) (s2 : PanelS) (eff : ReleaseEffect)
      (h : Panel.on_key_released s k = .ok (s2, eff)) : PanelStep s s2

/-- A freshly constructed `Panel`: `current_page_number = 0` and
`pages = self._create_pages(self.items)` (end of `Panel.__init__`). -/
def PanelInit (s : PanelS) : Prop :=
  s.current_page_number = 0 ∧
  createPages s.hasParent (itemsOf s.items) = some s.pages

/-- The inductive invariant for the current-page-index bound: the index is in
range and the page list is never longer than what `_create_pages` would
produce for the current item count. -/
def PanelInv (s : PanelS) : Prop :=
  s.current_page_number < s.pages.length ∧
  s.pages.length ≤ pageCount s.hasParent s.items.length

/-- Enum `EventType` of `comm/event_bus.py` (a `str` enum; members abstracted
as constructors).  `internal_clock_tick` and `panel_parent` are referenced by
`panel_nodes.py` and `core/deck_manager.py` and are included here as the
evidently intended members, although the enum class in `event_bus.py` omits
them. -/
inductive EventType where
  | exit
  | initialized
  | clock_tick
  | internal_clock_tick
  | key_changed
  | key_pressed
  | key_released
  | item_rendered
  | item_pressed
  | item_released
  | panel_rendered
  | panel_activated
  | panel_deactivated
  | panel_page_changed
  | panel_next_page
  | panel_previous_page
  | panel_parent
  deriving DecidableEq, Repr

/-- Class `UserCallback` of `comm/event_bus.py`: a subscription record
holding the subscribing `user` object and its callback.  The source calls
`callback()` when `data is None`, `callback(*data)` for a tuple and
`callback(data)` otherwise; the argument shapes are abstracted as an
`Option D`. -/
structure UserCallback (U D R : Type) where
  user : U
  callback : Option D → R

/-- Class `EventBus` of `comm/event_bus.py`: `_subscribers` is a
`defaultdict(list)` keyed by event type (modelled as a total function that is
`[]` for never-subscribed topics, which matches the source because `publish`
and `send_event` skip topics without an entry), `_broadcasters` a plain
list. -/
structure EventBus (U D R : Type) where
  subscribers : EventType → List (UserCallback U D R)
  broadcasters : List (Option D → R)

namespace EventBus

/-- A bus with no subscriptions. -/
def empty (U D R : Type) : EventBus U D R := ⟨fun _ => [], []⟩

/-- Method `EventBus.subscribe`: appends a `UserCallback(user, callback)` to
`self._subscribers[event_type]` (registration order is preserved). -/
def subscribe (bus : EventBus U D R) (user : U) (event_type : EventType)
    (callback : Option D → R) : EventBus U D R :=
  { bus with
    subscribers := fun e =>
      if e = event_type then bus.subscribers e ++ [⟨user, callback⟩]
      else bus.subscribers e }

/-- Method `EventBus.publish` invokes every `UserCallback` stored under
`event_type`, in registration order and regardless of recipient; this is the
list of invoked records. -/
def publishInvoked (bus : EventBus U D R) (event_type : EventType) :
    List (UserCallback U D R) :=
  bus.subscribers event_type

/-- Method `EventBus.publish`: returns `event_sent`, which is `True` exactly
when at least one subscriber of `event_type` was invoked. -/
def publish (bus : EventBus U D R) (event_type : EventType) (_data : Option D) :
    Bool :=
  !(bus.subscribers event_type).isEmpty

/-- Method `EventBus.send_event`: walks `self._subscribers[event_type]` in
registration order and, at the first record with `uscall.user == user`,
returns the callback's return value; `None` when no record matches (or the
topic has no subscribers). -/
def send_event [BEq U] (bus : EventBus U D R) (user : U)
    (event_type : EventType) (data : Option D) : Option R :=
  ((bus.subscribers event_type).find? (fun uc => uc.user == user)).map
    (fun uc => uc.callback data)

/-- The records `send_event` invokes: the first match only (the source
returns from inside the loop), none when no record matches. -/
def sendEventInvoked [BEq U] (bus : EventBus U D R) (user : U)
    (event_type : EventType) : List (UserCallback U D R) :=
  ((bus.subscribers event_type).find? (fun uc => uc.user == user)).toList

/-- Method `EventBus.unsubscribe`: removes every record of `event_type` whose
user equals `user`. -/
def unsubscribe [BEq U] (bus : EventBus U D R) (user : U)
    (event_type : EventType) : EventBus U D R :=
  { bus with
    subscribers := fun e =>
      if e = event_type then
        (bus.subscribers e).filter (fun uc => !(uc.user == user))
      else bus.subscribers e }

end EventBus

/-- One `subscribe(user, topic, callback)` call. -/
structure Registration (U D R : Type) where
  user : U
  topic : EventType
  callback : Option D → R

/-- The bus obtained by a sequence of `subscribe` calls in order. -/
def mkBus (regs : List (Registration U D R)) : EventBus U D R :=
  regs.foldl (fun bus r => bus.subscribe r.user r.topic r.callback)
    (EventBus.empty U D R)

/-- The panel tree as far as activation is concerned (`Panel.active` flags
and `Item.parent` back-references): panels are identified by `Nat` ids,
`parentOf` is the parent edge and `active` the `_active` flag of each
panel.  The `active` setter of `panel_nodes.py` additionally registers the
newly active panel in the global context and fires
`PANEL_ACTIVATED`/`PANEL_DEACTIVATED` (whose handlers play a sound and log,
mutating no `_active` flag), so the flag assignment below is its full effect
on activation state. -/
structure NavState where
  parentOf : Nat → Option Nat
  active : Nat → Bool

/-- Assignment `panel._active = b` for panel `i`. -/
def setActive (f : Nat → Bool) (i : Nat) (b : Bool) : Nat → Bool :=
  fun j => if j = i then b else f j

/-- The completed navigation operations of the claim, each performed by the
panel `p` that received the key release: `handoff p c` is
`_handle_key_released` resolving a child `Panel` item (`item.active = True;
self.active = False`), `goToParent p` is the `ParentButton` path
(`PANEL_PARENT` → `go_to_parent`: parent activated, self deactivated, no-op
without a parent), and the page navigations do not touch `active`. -/
inductive NavOp where
  | handoff (p c : Nat)
  | goToParent (p : Nat)
  | nextPage (p : Nat)
  | prevPage (p : Nat)

/-- Applying one completed navigation operation.  The `s.active p` guard is
the dispatch-chain guard: the registry forwards key events only to the
active panel and `Panel.on_key_released` additionally checks `self.active`
before `_handle_key_released` runs, so every operation in the claim's
sequences is performed by the currently active panel.  The handoff requires
the resolved item to actually be a child of `p`, which is how it got onto
`p`'s page. -/
def applyNav (s : NavState) : NavOp → NavState
  | .handoff p c =>
    if s.active p = true ∧ s.parentOf c = some p then
      { s with active := setActive (setActive s.active c true) p false }
    else s
  | .goToParent p =>
    if s.active p = true then
      match s.parentOf p with
      | some q => { s with active := setActive (setActive s.active q true) p false }
      | none => s
    else s
  | .nextPage _ => s
  | .prevPage _ => s

/-- Exactly one panel in the tree reports `active == True`. -/
def ExactlyOneActive (s : NavState) : Prop :=
  ∃ a, s.active a = true ∧ ∀ b, s.active b = true → b = a

/-- Tree well-formedness: no panel is its own parent. -/
def NavWf (s : NavState) : Prop :=
  ∀ i j, s.parentOf i = some j → j ≠ i

/-- A plugin class as resolved from a module attribute
(`plugins/manager.py`): the handler names reachable via `getattr` on its
instances, and whether its `register()` hook raises. -/
structure PluginClassM where
  className : String
  handlers : List String
  registerRaises : Bool
  deriving DecidableEq, Repr

/-- An importable module: its attributes that are plugin/panel classes. -/
structure PluginModuleM where
  attrs : List (String × PluginClassM)

/-- One entry of `PluginMetadata.panels` (`plugins/base.py`,
`PluginPanelDefinition`). -/
structure PanelDefM where
  identifier : String
  name : String
  path : String
  mount : String
  class_path : Option String

/-- One entry of `PluginMetadata.events` (`plugins/base.py`,
`PluginEventHook`). -/
structure EventHookM where
  topic : EventType
  handler : String

/-- Class `PluginMetadata` (`plugins/base.py`), the parsed `plugin.yaml`. -/
structure PluginMetadataM where
  name : String
  entry_point : String
  panels : List PanelDefM
  events : List EventHookM

/-- A directory under the plugin root: `manifest = none` models a directory
without a `plugin.yaml` (skipped with a warning); `some (.error e)` a
manifest whose YAML parse or `PluginMetadata.from_dict` raises; `some (.ok
md)` a parsed manifest. -/
structure PluginDirM where
  dirName : String
  manifest : Option (Except String PluginMetadataM)

/-- The ambient Python environment `PluginManager` interacts with:
`modules` is the importable-module table consulted by
`importlib.import_module`, `pathExists` the `(plugin_dir / path).exists()`
check, and `resolveMount` abstracts `PanelRegistry.get_panel` for non-root
mount paths (`none` = mount target not found). -/
structure PluginEnv where
  modules : List (String × PluginModuleM)
  pathExists : String → Bool
  resolveMount : String → Option String

/-- The mutable state `discover_and_load` acts on: the `add_child` mount
records `(mount target, panel name)` made on the tree, the event-bus
subscription records `(plugin, topic, handler)` made by `_wire_event_hooks`,
and `self._plugins`. -/
structure PMState where
  mounted : List (String × String)
  subs : List (String × EventType × String)
  plugins : List String
  deriving DecidableEq, Repr

/-- Static method `PluginManager._resolve_entry_point`:
`module_name, _, attr_name = entry_point.partition(":")`; an empty module or
attribute name is logged and yields `None`; `importlib.import_module` raises
`ModuleNotFoundError` for an unknown module; `getattr(module, attr_name,
None)` yields `None` for a missing attribute. -/
def resolveEntryPoint (env : PluginEnv) (entry_point : String) :
    Except String (Option PluginClassM) :=
  let module_name := String.mk (entry_point.toList.takeWhile (fun c => c ≠ ':'))
  let attr_name := String.mk ((entry_point.toList.dropWhile (fun c => c ≠ ':')).drop 1)
  if module_name = "" ∨ attr_name = "" then .ok none
  else
    match env.modules.lookup module_name with
    | none => .error "ModuleNotFoundError"
    | some m => .ok (m.attrs.lookup attr_name)

/-- Method `PluginManager._get_mount_target`: `"", "root", "/"` (and `None`)
resolve to the registry root; anything else is looked up in the tree. -/
def getMountTarget (env : PluginEnv) (mount : String) : Option String :=
  if mount = "" ∨ mount = "root" ∨ mount = "/" then some "root"
  else env.resolveMount mount

/-- Method `PluginManager._mount_panels`: for each declared panel, a missing
mount target or missing panel path is logged and skipped; a declared `class`
is resolved through `_resolve_entry_point` (an import error propagates, and a
`None` result makes the construction call raise `TypeError`); a successful
construction is attached via `add_child` followed by `refresh_layout`.
Raises carry the state that was already mutated (Python does not roll back
earlier mounts). -/
def mountPanelsLoop (env : PluginEnv) (panels : List PanelDefM) (st : PMState) :
    Except (String × PMState) PMState :=
  match panels with
  | [] => .ok st
  | pd :: rest =>
    match getMountTarget env pd.mount with
    | none => mountPanelsLoop env rest st
    | some target =>
      if env.pathExists pd.path then
        match pd.class_path with
        | none =>
          mountPanelsLoop env rest
            { st with mounted := st.mounted ++ [(target, pd.name)] }
        | some cp =>
          match resolveEntryPoint env cp with
          | .error e => .error (e, st)
          | .ok none => .error ("TypeError", st)
          | .ok (some _) =>
            mountPanelsLoop env rest
              { st with mounted := st.mounted ++ [(target, pd.name)] }
      else mountPanelsLoop env rest st

/-- Method `PluginManager._wire_event_hooks`: a hook whose handler name is
not found on the plugin instance is logged and skipped; otherwise the bus
subscription is recorded with the plugin as recipient. -/
def wireEventHooks (cls : PluginClassM) (md : PluginMetadataM) (st : PMState) :
    PMState :=
  md.events.foldl
    (fun st hook =>
      if cls.handlers.contains hook.handler then
        { st with subs := st.subs ++ [(md.name, hook.topic, hook.handler)] }
      else st)
    st

/-- One iteration of `PluginManager.discover_and_load` for one candidate
directory: directories without a manifest are skipped; the whole
load sequence (parse metadata, instantiate, mount panels, `register()`,
wire hooks, append to `self._plugins`) runs inside `try`, and any raise is
caught and logged, keeping whatever state was mutated before the raise. -/
def loadPluginDir (env : PluginEnv) (st : PMState) (dir : PluginDirM) : PMState :=
  match dir.manifest with
  | none => st
  | some mres =>
    let attempt : Except (String × PMState) PMState :=
      match mres with
      | .error e => .error (e, st)
      | .ok md =>
        match resolveEntryPoint env md.entry_point with
        | .error e => .error (e, st)
        | .ok none => .ok st
        | .ok (some cls) =>
          match mountPanelsLoop env md.panels st with
          | .error es => .error es
          | .ok st1 =>
            if cls.registerRaises then .error ("register", st1)
            else
              let st2 := wireEventHooks cls md st1
              .ok { st2 with plugins := st2.plugins ++ [md.name] }
    match attempt with
    | .ok st2 => st2
    | .error (_, stAtRaise) => stAtRaise

/-- Method `PluginManager.discover_and_load`: folds `loadPluginDir` over the
(sorted) candidate directories. -/
def discoverAndLoad (env : PluginEnv) (dirs : List PluginDirM) (st : PMState) :
    PMState :=
  dirs.foldl (loadPluginDir env) st

theorem enumFrom_map_item (k : Nat) (l : List PItem) :
    (enumFrom k l).map PageItem.item = l := by
  induction l generalizing k with
  | nil => rfl
  | cons x xs ih => simp [enumFrom, ih]

theorem enumFrom_length (k : Nat) (l : List PItem) :
    (enumFrom k l).length = l.length := by
  induction l generalizing k with
  | nil => rfl
  | cons x xs ih => simp [enumFrom, ih]

theorem PanelPage.push_of_space (p : PanelPage) (x : PItem)
    (h : 1 ≤ p.space_left) :
    p.push x = some { p with items := p.items ++ [⟨p.items.length, x⟩] } := by
  unfold push
  rw [if_neg]
  omega

/-- When every pending item fits onto the current page of a fresh run
(`done = []`), the placement loop of `Panel._create_pages` places them all
consecutively and injects no navigation button. -/
theorem createPagesLoop_all_fit (toAdd : List PItem) (cur : PanelPage)
    (hfit : toAdd.length ≤ cur.space_left) :
    createPagesLoop toAdd.length toAdd [] cur =
      some ([], ⟨cur.page_number, cur.items ++ enumFrom cur.items.length toAdd⟩, []) := by
  induction toAdd generalizing cur with
  | nil =>
    simp [createPagesLoop, enumFrom]
  | cons x rest ih =>
    have hspace : 1 ≤ cur.space_left := by
      simp only [List.length_cons] at hfit
      omega
    have hcap : cur.items.length + 1 ≤ PanelPage.capacity := by
      unfold PanelPage.space_left at hspace
      omega
    simp only [List.length_cons, createPagesLoop]
    rw [if_neg (by simp), Option.some_bind]
    have hcond : cur.space_left > 1 ∨ (cur.space_left = 1 ∧ rest.length = 0) := by
      simp only [List.length_cons] at hfit
      rcases Nat.eq_or_lt_of_le hspace with h1 | h1
      · right
        constructor
        · omega
        · omega
      · left
        omega
    rw [if_pos hcond, PanelPage.push_of_space cur x hspace, Option.map_some',
      Option.some_bind]
    dsimp only
    have hnotfull : ¬ (PanelPage.is_full { cur with items := cur.items ++ [⟨cur.items.length, x⟩] } ∧ rest.length ≠ 0) := by
      rintro ⟨hf, hr⟩
      unfold PanelPage.is_full PanelPage.space_left at hf
      simp only [List.length_append, List.length_cons, List.length_nil] at hf
      simp only [List.length_cons] at hfit
      unfold PanelPage.space_left at hfit
      omega
    rw [if_neg hnotfull]
    have hfit2 : rest.length ≤ PanelPage.space_left { cur with items := cur.items ++ [⟨cur.items.length, x⟩] } := by
      unfold PanelPage.space_left at hfit ⊢
      simp only [List.length_append, List.length_cons, List.length_nil]
      simp only [List.length_cons] at hfit
      omega
    rw [ih _ hfit2]
    simp [enumFrom, List.append_assoc]

/-- C1 — Pagination completeness fails in the code: with 16 items and no
parent, `Panel._create_pages` places only the first 15 (items `0..14`) and
silently drops item `15`: the `for i in range(len(items))` loop spends one
iteration on the `NextPageButton` re-queue, so the re-queued tail item is
never placed.  The multiset of non-navigation items across all pages is
therefore a strict subset of the original `items`, contradicting the claim
that no item is lost. -/
theorem createPages_loses_trailing_item :
    (createPages false (demoItems 16)).map nonNavItems = some (demoItems 15) ∧
    (createPages false (demoItems 16)).map nonNavItems ≠ some (demoItems 16) ∧
    createPagesLeftover false (demoItems 16) = some [PItem.ordinary 15 .button] := by
  refine ⟨rfl, ?_, rfl⟩
  decide

/-- C2 — Overflow scenario: the spec expects page 1 to hold a
`PreviousPageButton` followed by 4 buttons, but the code produces
`[PreviousPage, button 13, button 14, button 15]` (4 slots) and drops
button `16` entirely (the leftover of the placement loop). -/
theorem createPages_seventeen_buttons :
    (createPages true (demoItems 17)).map (fun pgs => pgs.map (fun pg => pg.items.map PageItem.item)) =
      some [PItem.parentBtn :: (demoItems 13 ++ [PItem.nextBtn]),
            [PItem.prevBtn, .ordinary 13 .button, .ordinary 14 .button, .ordinary 15 .button]] ∧
    createPagesLeftover true (demoItems 17) = some [PItem.ordinary 16 .button] := by
  constructor
  · rfl
  · rfl

/-- C6 — Last-item placement: a panel with a parent and exactly
`capacity - 1 = 14` children paginates to a single page holding the
`ParentButton` followed by all 14 children, with no `NextPageButton`
injected. -/
theorem createPages_last_item_placement (xs : List (Nat × ItemKind))
    (h : xs.length = 14) :
    ∃ pg : PanelPage,
      createPages true (xs.map (fun x => PItem.ordinary x.1 x.2)) = some [pg] ∧
      pg.items.map PageItem.item
        = PItem.parentBtn :: xs.map (fun x => PItem.ordinary x.1 x.2) ∧
      PItem.nextBtn ∉ pg.items.map PageItem.item := by
  set l : List PItem := xs.map (fun x => PItem.ordinary x.1 x.2) with hl
  have hlen : l.length = 14 := by simp [hl, h]
  have hpush : (⟨0, []⟩ : PanelPage).push .parentBtn
      = some ⟨0, [⟨0, .parentBtn⟩]⟩ := by rfl
  have hfit : l.length ≤ PanelPage.space_left ⟨0, [⟨0, .parentBtn⟩]⟩ := by
    rw [hlen]
    decide
  have hloop := createPagesLoop_all_fit l ⟨0, [⟨0, .parentBtn⟩]⟩ hfit
  refine ⟨⟨0, [⟨0, .parentBtn⟩] ++ enumFrom 1 l⟩, ?_, ?_, ?_⟩
  · simp only [createPages]
    rw [if_pos trivial, hpush, Option.some_bind, hloop, Option.map_some']
    simp [enumFrom]
  · simp [enumFrom_map_item]
  · simp [enumFrom_map_item, hl]

/-- Witness for `createPages_last_item_placement` at a concrete 14-child
panel. -/
theorem createPages_last_item_placement_witness :
    ∃ pg : PanelPage,
      createPages true (((List.range 14).map (fun i => (i, ItemKind.button))).map (fun x => PItem.ordinary x.1 x.2)) = some [pg] ∧
      pg.items.map PageItem.item
        = PItem.parentBtn :: ((List.range 14).map (fun i => (i, ItemKind.button))).map (fun x => PItem.ordinary x.1 x.2) ∧
      PItem.nextBtn ∉ pg.items.map PageItem.item :=
  createPages_last_item_placement ((List.range 14).map (fun i => (i, ItemKind.button))) (by decide)

theorem push_pageOK (p q : PanelPage) (x : PItem) (hp : PageOK p)
    (h : p.push x = some q) : PageOK q := by
  unfold PanelPage.push at h
  split at h
  · exact absurd h (by simp)
  · rename_i hspace
    unfold PanelPage.space_left at hspace
    obtain ⟨hlen, hpos⟩ := hp
    cases h
    constructor
    · simp only [List.length_append, List.length_cons, List.length_nil]
      unfold PanelPage.capacity at hlen hspace ⊢
      omega
    · simp only [List.length_append, List.length_cons, List.length_nil,
        List.map_append, List.map_cons, List.map_nil, hpos]
      rw [show p.items.length + 1 = p.items.length + 1 from rfl, List.range_succ]

theorem pageOK_empty (k : Nat) : PageOK ⟨k, []⟩ := by
  constructor
  · simp [PanelPage.capacity]
  · simp

/-- Every page reachable through `createPagesLoop` from well-formed
accumulators satisfies the page invariant. -/
theorem createPagesLoop_pageOK :
    ∀ (n : Nat) (toAdd : List PItem) (done : List PanelPage) (cur : PanelPage)
      (done2 : List PanelPage) (cur2 : PanelPage) (rest2 : List PItem),
      (∀ pg ∈ done, PageOK pg) → PageOK cur →
      createPagesLoop n toAdd done cur = some (done2, cur2, rest2) →
      (∀ pg ∈ done2, PageOK pg) ∧ PageOK cur2 := by
  intro n
  induction n with
  | zero =>
    intro toAdd done cur done2 cur2 rest2 hdone hcur hrun
    simp only [createPagesLoop, Option.some.injEq, Prod.mk.injEq] at hrun
    obtain ⟨rfl, rfl, rfl⟩ := hrun
    exact ⟨hdone, hcur⟩
  | succ n ih =>
    intro toAdd done cur done2 cur2 rest2 hdone hcur hrun
    match toAdd with
    | [] => simp [createPagesLoop] at hrun
    | item :: rest =>
      simp only [createPagesLoop, Option.bind_eq_some] at hrun
      obtain ⟨c1, hc1, hrun⟩ := hrun
      have hOK1 : PageOK c1 := by
        split at hc1
        · exact push_pageOK _ _ _ hcur hc1
        · cases hc1; exact hcur
      obtain ⟨cr, hcr, hrun⟩ := hrun
      have hOKcr : PageOK cr.1 := by
        split at hcr <;>
          · rw [Option.map_eq_some'] at hcr
            obtain ⟨c2, hc2, rfl⟩ := hcr
            exact push_pageOK _ _ _ hOK1 hc2
      split at hrun
      · refine ih _ _ _ _ _ _ ?_ (pageOK_empty _) hrun
        intro pg hpg
        rcases List.mem_append.mp hpg with hpg | hpg
        · exact hdone pg hpg
        · rcases List.mem_singleton.mp hpg with rfl
          exact hOKcr
      · exact ih _ _ _ _ _ _ hdone hOKcr hrun

/-- C3 — Page capacity and position invariant: every page produced by
`Panel._create_pages` holds at most `capacity = 15` entries whose `position`
values are exactly the contiguous range `0..len(page)-1` in insertion order,
and `PanelPage.push` refuses (raises `ValueError`, modelled as `none`) to
place an entry on a page that is already full. -/
theorem pagination_capacity_invariant (hasParent : Bool) (items : List PItem)
    (pages : List PanelPage) (h : createPages hasParent items = some pages) :
    (∀ pg ∈ pages, pg.items.length ≤ PanelPage.capacity ∧
        pg.items.map PageItem.position = List.range pg.items.length) ∧
    (∀ (p : PanelPage) (x : PItem), p.is_full → p.push x = none) := by
  constructor
  · unfold createPages at h
    rw [Option.bind_eq_some] at h
    obtain ⟨page0, hp0, h⟩ := h
    rw [Option.map_eq_some'] at h
    obtain ⟨r, hr, rfl⟩ := h
    have hOK0 : PageOK page0 := by
      split at hp0
      · exact push_pageOK _ _ _ (pageOK_empty 0) hp0
      · cases hp0; exact pageOK_empty 0
    have hmain := createPagesLoop_pageOK _ _ _ _ _ _ _
      (by intro pg hpg; exact absurd hpg (List.not_mem_nil pg)) hOK0 hr
    intro pg hpg
    rcases List.mem_append.mp hpg with hpg | hpg
    · exact hmain.1 pg hpg
    · rcases List.mem_singleton.mp hpg with rfl
      exact hmain.2
  · intro p x hfull
    unfold PanelPage.push
    rw [if_pos]
    unfold PanelPage.is_full at hfull
    omega

/-- Witness for `pagination_capacity_invariant`, applied to the empty panel
without a parent, whose pagination is the single empty page. -/
theorem pagination_capacity_invariant_witness :
    (∀ pg ∈ [({ page_number := 0, items := [] } : PanelPage)],
        pg.items.length ≤ PanelPage.capacity ∧
        pg.items.map PageItem.position = List.range pg.items.length) ∧
    (∀ (p : PanelPage) (x : PItem), p.is_full → p.push x = none) :=
  pagination_capacity_invariant false [] [⟨0, []⟩] rfl

theorem absLoopD_succ (n t d c : Nat) :
    absLoopD (n + 1) t d c
      = absLoopD n (absStep t d c).1 (absStep t d c).2.1 (absStep t d c).2.2 := rfl

theorem absStep_d_le (t d c : Nat) : d ≤ (absStep t d c).2.1 := by
  simp only [absStep, absStepAfterPrev]
  split_ifs <;> (dsimp only; omega)

theorem absStep_t_ge (t d c : Nat) : t - 1 ≤ (absStep t d c).1 := by
  simp only [absStep, absStepAfterPrev]
  split_ifs <;> (dsimp only; omega)

theorem absLoopD_ge (n : Nat) : ∀ (t d c : Nat), d ≤ absLoopD n t d c := by
  induction n with
  | zero => intro t d c; exact Nat.le_refl d
  | succ n ih =>
    intro t d c
    rw [absLoopD_succ]
    exact le_trans (absStep_d_le t d c) (ih _ _ _)

/-- Relating one abstract post-`c1` iteration on `t` pending items to one on
`t + 1`: either the two steps stay aligned (same completed-page and slot
counters, one more pending item), or `t = 1` and the run with the extra item
opens a new page (NextPage re-queue) where the short run places its last item
and stops. -/
theorem absStepAfterPrev_cases (t d c1 : Nat) (ht : 1 ≤ t)
    (hc1 : c1 + 1 ≤ PanelPage.capacity) :
    ((absStepAfterPrev (t + 1) d c1).1 = (absStepAfterPrev t d c1).1 + 1 ∧
     (absStepAfterPrev (t + 1) d c1).2.1 = (absStepAfterPrev t d c1).2.1 ∧
     (absStepAfterPrev (t + 1) d c1).2.2 = (absStepAfterPrev t d c1).2.2 ∧
     (absStepAfterPrev t d c1).2.2 + 1 ≤ PanelPage.capacity) ∨
    (t = 1 ∧ (absStepAfterPrev t d c1).2.1 = d ∧
     (absStepAfterPrev (t + 1) d c1).2.1 = d + 1 ∧
     (absStepAfterPrev (t + 1) d c1).2.2 + 1 ≤ PanelPage.capacity) := by
  have hcap : PanelPage.capacity = 15 := rfl
  simp only [absStepAfterPrev, hcap]
  simp only [hcap] at hc1
  by_cases hgt : 15 - c1 > 1
  · rw [if_pos (show 15 - c1 > 1 ∨ (15 - c1 = 1 ∧ t - 1 = 0) from Or.inl hgt),
      if_pos (show 15 - c1 > 1 ∨ (15 - c1 = 1 ∧ t + 1 - 1 = 0) from Or.inl hgt)]
    by_cases hfull : 15 - (c1 + 1) = 0
    · by_cases ht1 : t - 1 = 0
      · rw [if_neg (show ¬(15 - (c1 + 1) = 0 ∧ t - 1 ≠ 0) from fun hh => hh.2 ht1),
          if_pos (show 15 - (c1 + 1) = 0 ∧ t + 1 - 1 ≠ 0 from ⟨hfull, by omega⟩)]
        right
        exact ⟨by omega, rfl, rfl, by simp⟩
      · rw [if_pos (show 15 - (c1 + 1) = 0 ∧ t - 1 ≠ 0 from ⟨hfull, ht1⟩),
          if_pos (show 15 - (c1 + 1) = 0 ∧ t + 1 - 1 ≠ 0 from ⟨hfull, by omega⟩)]
        left
        refine ⟨?_, rfl, rfl, by simp⟩
        dsimp only
        omega
    · rw [if_neg (show ¬(15 - (c1 + 1) = 0 ∧ t - 1 ≠ 0) from fun hh => hfull hh.1),
        if_neg (show ¬(15 - (c1 + 1) = 0 ∧ t + 1 - 1 ≠ 0) from fun hh => hfull hh.1)]
      left
      refine ⟨?_, rfl, rfl, ?_⟩
      · dsimp only
        omega
      · dsimp only
        omega
  · have heq1 : 15 - c1 = 1 := by omega
    have hfull : 15 - (c1 + 1) = 0 := by omega
    by_cases ht1 : t - 1 = 0
    · rw [if_pos (show 15 - c1 > 1 ∨ (15 - c1 = 1 ∧ t - 1 = 0) from Or.inr ⟨heq1, ht1⟩),
        if_neg (show ¬(15 - c1 > 1 ∨ (15 - c1 = 1 ∧ t + 1 - 1 = 0)) from by
          rintro (h | ⟨_, h2⟩)
          · exact hgt h
          · omega)]
      rw [if_neg (show ¬(15 - (c1 + 1) = 0 ∧ t - 1 ≠ 0) from fun hh => hh.2 ht1),
        if_pos (show 15 - (c1 + 1) = 0 ∧ t + 1 ≠ 0 from ⟨hfull, Nat.succ_ne_zero t⟩)]
      right
      exact ⟨by omega, rfl, rfl, by simp⟩
    · rw [if_neg (show ¬(15 - c1 > 1 ∨ (15 - c1 = 1 ∧ t - 1 = 0)) from by
          rintro (h | ⟨_, h2⟩)
          · exact hgt h
          · exact ht1 h2),
        if_neg (show ¬(15 - c1 > 1 ∨ (15 - c1 = 1 ∧ t + 1 - 1 = 0)) from by
          rintro (h | ⟨_, h2⟩)
          · exact hgt h
          · omega)]
      rw [if_pos (show 15 - (c1 + 1) = 0 ∧ t ≠ 0 from ⟨hfull, by omega⟩),
        if_pos (show 15 - (c1 + 1) = 0 ∧ t + 1 ≠ 0 from ⟨hfull, Nat.succ_ne_zero t⟩)]
      left
      exact ⟨rfl, rfl, rfl, by simp⟩

/-- Lifting `absStepAfterPrev_cases` through the `PreviousPageButton`
resolution: the `c1` computation depends only on `d` and `c`, which the two
compared runs share. -/
theorem absStep_cases (t d c : Nat) (ht : 1 ≤ t) (hc : c + 1 ≤ PanelPage.capacity) :
    ((absStep (t + 1) d c).1 = (absStep t d c).1 + 1 ∧
     (absStep (t + 1) d c).2.1 = (absStep t d c).2.1 ∧
     (absStep (t + 1) d c).2.2 = (absStep t d c).2.2 ∧
     (absStep t d c).2.2 + 1 ≤ PanelPage.capacity) ∨
    (t = 1 ∧ (absStep t d c).2.1 = d ∧ (absStep (t + 1) d c).2.1 = d + 1 ∧
     (absStep (t + 1) d c).2.2 + 1 ≤ PanelPage.capacity) := by
  simp only [absStep]
  by_cases hA : d + 1 > 1 ∧ PanelPage.capacity - c = PanelPage.capacity
  · rw [if_pos hA]
    refine absStepAfterPrev_cases t d (c + 1) ht ?_
    have h2 := hA.2
    have hcap : PanelPage.capacity = 15 := rfl
    omega
  · rw [if_neg hA]
    exact absStepAfterPrev_cases t d c ht hc

/-- The completed-page count after the loop is monotone when the pending-item
count and iteration count grow together (which is how `_create_pages` is
invoked: the loop runs `len(items)` times on `len(items)` pending items). -/
theorem absLoopD_mono (n : Nat) :
    ∀ (t d c : Nat), n ≤ t → c + 1 ≤ PanelPage.capacity →
      absLoopD n t d c ≤ absLoopD (n + 1) (t + 1) d c := by
  induction n with
  | zero =>
    intro t d c _ _
    exact absLoopD_ge 1 (t + 1) d c
  | succ n ih =>
    intro t d c hn hc
    have ht : 1 ≤ t := le_trans (Nat.succ_le_succ (Nat.zero_le n)) hn
    rw [absLoopD_succ, absLoopD_succ]
    rcases absStep_cases t d c ht hc with ⟨h1, h2, h3, h4⟩ | ⟨ht1, h2, h3, h4⟩
    · rw [h1, h2, h3]
      exact ih _ _ _ (by have := absStep_t_ge t d c; omega) h4
    · have hn0 : n = 0 := by omega
      subst hn0
      have hL : absLoopD 0 (absStep t d c).1 (absStep t d c).2.1 (absStep t d c).2.2
          = (absStep t d c).2.1 := rfl
      have hR := absLoopD_ge 1 (absStep (t + 1) d c).1 (absStep (t + 1) d c).2.1
        (absStep (t + 1) d c).2.2
      simp only [Nat.zero_add]
      omega

/-- The second half of one `_create_pages` loop iteration (item placement or
NextPage re-queue, then the new-page check), related to its length
abstraction.  `c1v` is the entry count of the working page after the
PreviousPage resolution. -/
theorem createPagesLoop_abs_inner (n : Nat)
    (ihfun : ∀ (toAdd : List PItem) (done : List PanelPage) (cur : PanelPage),
      n ≤ toAdd.length → (n = 0 ∨ cur.items.length + 1 ≤ PanelPage.capacity) →
      ∃ done2 cur2 rest2,
        createPagesLoop n toAdd done cur = some (done2, cur2, rest2) ∧
        done2.length = absLoopD n toAdd.length done.length cur.items.length)
    (item : PItem) (rest : List PItem) (done : List PanelPage) (cur1 : PanelPage)
    (c1v : Nat) (hn : n ≤ rest.length) (hc1v : cur1.items.length = c1v)
    (hcv : c1v + 1 ≤ PanelPage.capacity) :
    ∃ done2 cur2 rest2,
      ((if cur1.space_left > 1 ∨ (cur1.space_left = 1 ∧ rest.length = 0) then
          (cur1.push item).map (fun c => (c, rest))
        else
          (cur1.push .nextBtn).map (fun c => (c, item :: rest))).bind
        fun cr =>
          if cr.1.is_full ∧ cr.2.length ≠ 0 then
            createPagesLoop n cr.2 (done ++ [cr.1]) ⟨done.length + 1, []⟩
          else
            createPagesLoop n cr.2 done cr.1)
        = some (done2, cur2, rest2) ∧
      done2.length
        = absLoopD n (absStepAfterPrev (rest.length + 1) done.length c1v).1
            (absStepAfterPrev (rest.length + 1) done.length c1v).2.1
            (absStepAfterPrev (rest.length + 1) done.length c1v).2.2 := by
  have hcap : PanelPage.capacity = 15 := rfl
  have habs : absStepAfterPrev (rest.length + 1) done.length c1v
      = if PanelPage.capacity - c1v > 1 ∨ (PanelPage.capacity - c1v = 1 ∧ rest.length = 0) then
          (if PanelPage.capacity - (c1v + 1) = 0 ∧ rest.length ≠ 0 then
            (rest.length, done.length + 1, 0)
          else (rest.length, done.length, c1v + 1))
        else
          (if PanelPage.capacity - (c1v + 1) = 0 ∧ rest.length + 1 ≠ 0 then
            (rest.length + 1, done.length + 1, 0)
          else (rest.length + 1, done.length, c1v + 1)) := by
    unfold absStepAfterPrev
    simp only [Nat.add_sub_cancel]
  rw [habs]
  by_cases hB : PanelPage.capacity - c1v > 1 ∨ (PanelPage.capacity - c1v = 1 ∧ rest.length = 0)
  · have hBr : cur1.space_left > 1 ∨ (cur1.space_left = 1 ∧ rest.length = 0) := by
      unfold PanelPage.space_left
      rw [hc1v]
      exact hB
    have hsp : 1 ≤ cur1.space_left := by
      unfold PanelPage.space_left
      rw [hc1v]
      rcases hB with h | h
      · omega
      · omega
    rw [if_pos hBr, if_pos hB, PanelPage.push_of_space _ _ hsp, Option.map_some',
      Option.some_bind]
    by_cases hC : PanelPage.capacity - (c1v + 1) = 0 ∧ rest.length ≠ 0
    · have hCr : PanelPage.is_full
          { cur1 with items := cur1.items ++ [⟨cur1.items.length, item⟩] } ∧
          rest.length ≠ 0 := by
        refine ⟨?_, hC.2⟩
        unfold PanelPage.is_full PanelPage.space_left
        simp only [List.length_append, List.length_cons, List.length_nil]
        have := hC.1
        omega
      rw [if_pos hCr, if_pos hC]
      obtain ⟨d2, c2, r2, hrun, heq⟩ := ihfun rest
        (done ++ [{ cur1 with items := cur1.items ++ [⟨cur1.items.length, item⟩] }])
        ⟨done.length + 1, []⟩ hn (Or.inr (by simp [PanelPage.capacity]))
      refine ⟨d2, c2, r2, hrun, ?_⟩
      rw [heq]
      simp
    · have hCr : ¬ (PanelPage.is_full
          { cur1 with items := cur1.items ++ [⟨cur1.items.length, item⟩] } ∧
          rest.length ≠ 0) := by
        rintro ⟨h1, h2⟩
        apply hC
        refine ⟨?_, h2⟩
        unfold PanelPage.is_full PanelPage.space_left at h1
        simp only [List.length_append, List.length_cons, List.length_nil] at h1
        omega
      rw [if_neg hCr, if_neg hC]
      obtain ⟨d2, c2, r2, hrun, heq⟩ := ihfun rest done
        { cur1 with items := cur1.items ++ [⟨cur1.items.length, item⟩] } hn (by
          by_cases h0 : n = 0
          · exact Or.inl h0
          · right
            have hr0 : rest.length ≠ 0 := by omega
            have hful : ¬ (PanelPage.capacity - (c1v + 1) = 0) := fun hh => hC ⟨hh, hr0⟩
            simp only [List.length_append, List.length_cons, List.length_nil]
            omega)
      refine ⟨d2, c2, r2, hrun, ?_⟩
      rw [heq]
      simp [hc1v]
  · have hBr : ¬ (cur1.space_left > 1 ∨ (cur1.space_left = 1 ∧ rest.length = 0)) := by
      unfold PanelPage.space_left
      rw [hc1v]
      exact hB
    have hsp : 1 ≤ cur1.space_left := by
      unfold PanelPage.space_left
      rw [hc1v]
      omega
    rw [if_neg hBr, if_neg hB, PanelPage.push_of_space _ _ hsp, Option.map_some',
      Option.some_bind]
    have hfull : PanelPage.capacity - (c1v + 1) = 0 := by
      push_neg at hB
      omega
    have hC2 : PanelPage.capacity - (c1v + 1) = 0 ∧ rest.length + 1 ≠ 0 :=
      ⟨hfull, Nat.succ_ne_zero _⟩
    rw [if_pos hC2]
    have hCr : PanelPage.is_full
        { cur1 with items := cur1.items ++ [⟨cur1.items.length, .nextBtn⟩] } ∧
        (item :: rest).length ≠ 0 := by
      constructor
      · unfold PanelPage.is_full PanelPage.space_left
        simp only [List.length_append, List.length_cons, List.length_nil]
        omega
      · simp
    rw [if_pos hCr]
    obtain ⟨d2, c2, r2, hrun, heq⟩ := ihfun (item :: rest)
      (done ++ [{ cur1 with items := cur1.items ++ [⟨cur1.items.length, .nextBtn⟩] }])
      ⟨done.length + 1, []⟩ (by simp; omega) (Or.inr (by simp [PanelPage.capacity]))
    refine ⟨d2, c2, r2, hrun, ?_⟩
    rw [heq]
    simp

/-- Every run of the `_create_pages` loop with enough pending items
(`fuel ≤ len(items_to_add)`, which `_create_pages` guarantees) terminates
without an exception, and its completed-page count equals the length
abstraction of the loop. -/
theorem createPagesLoop_abs :
    ∀ (n : Nat) (toAdd : List PItem) (done : List PanelPage) (cur : PanelPage),
      n ≤ toAdd.length →
      (n = 0 ∨ cur.items.length + 1 ≤ PanelPage.capacity) →
      ∃ done2 cur2 rest2,
        createPagesLoop n toAdd done cur = some (done2, cur2, rest2) ∧
        done2.length = absLoopD n toAdd.length done.length cur.items.length := by
  intro n
  induction n with
  | zero =>
    intro toAdd done cur _ _
    exact ⟨done, cur, toAdd, rfl, rfl⟩
  | succ n ih =>
    intro toAdd done cur hlen hcap
    match toAdd with
    | [] => simp at hlen
    | item :: rest =>
      have hc : cur.items.length + 1 ≤ PanelPage.capacity := by
        rcases hcap with h | h
        · exact absurd h (Nat.succ_ne_zero n)
        · exact h
      simp only [List.length_cons] at hlen ⊢
      rw [absLoopD_succ]
      simp only [createPagesLoop, absStep]
      by_cases hA : done.length + 1 > 1 ∧ cur.is_empty
      · have hA2 : done.length + 1 > 1 ∧
            PanelPage.capacity - cur.items.length = PanelPage.capacity := hA
        have hc0 : cur.items.length = 0 := by
          have h2 := hA2.2
          have hcap15 : PanelPage.capacity = 15 := rfl
          omega
        rw [if_pos hA, if_pos hA2,
          PanelPage.push_of_space _ _ (by
            unfold PanelPage.space_left
            have hcap15 : PanelPage.capacity = 15 := rfl
            omega),
          Option.some_bind]
        exact createPagesLoop_abs_inner n ih item rest done _ _ (by omega)
          (by simp) (by
            have hcap15 : PanelPage.capacity = 15 := rfl
            omega)
      · have hA2 : ¬ (done.length + 1 > 1 ∧
            PanelPage.capacity - cur.items.length = PanelPage.capacity) := hA
        rw [if_neg hA, if_neg hA2, Option.some_bind]
        exact createPagesLoop_abs_inner n ih item rest done cur cur.items.length
          (by omega) rfl hc

/-- The number of pages `_create_pages` returns depends only on the presence
of a parent and the number of items. -/
theorem createPages_length (hasParent : Bool) (items : List PItem)
    (pages : List PanelPage) (h : createPages hasParent items = some pages) :
    pages.length = pageCount hasParent items.length := by
  unfold createPages at h
  rw [Option.bind_eq_some] at h
  obtain ⟨page0, hp0, h⟩ := h
  rw [Option.map_eq_some'] at h
  obtain ⟨r, hr, rfl⟩ := h
  have hlen0 : page0.items.length = (if hasParent then 1 else 0) := by
    cases hasParent
    · simp only [Bool.false_eq_true, if_false] at hp0 ⊢
      cases hp0
      rfl
    · simp only [if_true] at hp0 ⊢
      rw [show PanelPage.push ⟨0, []⟩ .parentBtn
          = some ⟨0, [⟨0, .parentBtn⟩]⟩ from rfl, Option.some.injEq] at hp0
      rw [← hp0]
      rfl
  have hpre : items.length = 0 ∨ page0.items.length + 1 ≤ PanelPage.capacity := by
    right
    rw [hlen0]
    cases hasParent <;> decide
  obtain ⟨d2, c2, r2, hrun, heq⟩ :=
    createPagesLoop_abs items.length items [] page0 (le_refl _) hpre
  rw [hrun, Option.some.injEq] at hr
  subst hr
  unfold pageCount
  simp only [List.length_append, List.length_cons, List.length_nil]
  rw [heq, hlen0]
  rfl

/-- Adding one item to a panel never shrinks the number of pages
`_create_pages` produces. -/
theorem pageCount_mono (hasParent : Bool) (n : Nat) :
    pageCount hasParent n ≤ pageCount hasParent (n + 1) := by
  unfold pageCount
  have := absLoopD_mono n n 0 (if hasParent then 1 else 0) (le_refl n)
    (by cases hasParent <;> decide)
  omega

theorem panelInv_of_init (s : PanelS) (hinit : PanelInit s) : PanelInv s := by
  obtain ⟨h0, hpages⟩ := hinit
  have hlen := createPages_length _ _ _ hpages
  constructor
  · rw [h0, hlen]
    unfold pageCount
    omega
  · rw [hlen]
    unfold itemsOf
    simp

/-- `_handle_key_pressed` only touches the `pressed` flags: the pagination
state is unchanged in every non-raising outcome. -/
theorem handle_key_pressed_frame (s : PanelS) (k : Nat) (s2 : PanelS)
    (eff : Option (Nat × KeyDisplayM))
    (h : Panel.handle_key_pressed s k = .ok (s2, eff)) :
    s2.hasParent = s.hasParent ∧ s2.items = s.items ∧ s2.pages = s.pages ∧
    s2.current_page_number = s.current_page_number := by
  unfold Panel.handle_key_pressed at h
  split at h
  · exact absurd h (by simp)
  · split at h
    · rw [Except.ok.injEq, Prod.mk.injEq] at h
      rw [← h.1]
      exact ⟨rfl, rfl, rfl, rfl⟩
    · split at h <;>
        · rw [Except.ok.injEq, Prod.mk.injEq] at h
          rw [← h.1]
          exact ⟨rfl, rfl, rfl, rfl⟩

/-- `_handle_key_released` either performs a page navigation
(`next_page`/`previous_page`) or leaves the pagination state unchanged. -/
theorem handle_key_released_frame (s : PanelS) (k : Nat) (s2 : PanelS)
    (eff : ReleaseEffect)
    (h : Panel.handle_key_released s k = .ok (s2, eff)) :
    s2 = Panel.next_page s ∨ s2 = Panel.previous_page s ∨
    (s2.hasParent = s.hasParent ∧ s2.items = s.items ∧ s2.pages = s.pages ∧
     s2.current_page_number = s.current_page_number) := by
  unfold Panel.handle_key_released at h
  split at h
  · exact absurd h (by simp)
  · split at h
    · rw [Except.ok.injEq, Prod.mk.injEq] at h
      refine Or.inr (Or.inr ?_)
      rw [← h.1]
      exact ⟨rfl, rfl, rfl, rfl⟩
    · split at h
      · rw [Except.ok.injEq, Prod.mk.injEq] at h
        refine Or.inr (Or.inr ?_)
        rw [← h.1]
        exact ⟨rfl, rfl, rfl, rfl⟩
      · rw [Except.ok.injEq, Prod.mk.injEq] at h
        refine Or.inr (Or.inr ?_)
        rw [← h.1]
        exact ⟨rfl, rfl, rfl, rfl⟩
      · split at h <;>
          · rw [Except.ok.injEq, Prod.mk.injEq] at h
            refine Or.inr (Or.inr ?_)
            rw [← h.1]
            exact ⟨rfl, rfl, rfl, rfl⟩
      · split at h
        · rw [Except.ok.injEq, Prod.mk.injEq] at h
          exact Or.inl h.1.symm
        · rw [Except.ok.injEq, Prod.mk.injEq] at h
          refine Or.inr (Or.inr ?_)
          rw [← h.1]
          exact ⟨rfl, rfl, rfl, rfl⟩
      · split at h
        · rw [Except.ok.injEq, Prod.mk.injEq] at h
          exact Or.inr (Or.inl h.1.symm)
        · rw [Except.ok.injEq, Prod.mk.injEq] at h
          refine Or.inr (Or.inr ?_)
          rw [← h.1]
          exact ⟨rfl, rfl, rfl, rfl⟩

theorem panelInv_next_page (s : PanelS) (hinv : PanelInv s) :
    PanelInv (Panel.next_page s) := by
  obtain ⟨h1, h2⟩ := hinv
  unfold Panel.next_page
  split
  · exact ⟨by simp; omega, by simpa using h2⟩
  · exact ⟨h1, h2⟩

theorem panelInv_previous_page (s : PanelS) (hinv : PanelInv s) :
    PanelInv (Panel.previous_page s) := by
  obtain ⟨h1, h2⟩ := hinv
  unfold Panel.previous_page
  split
  · exact ⟨by simp; omega, by simpa using h2⟩
  · exact ⟨h1, h2⟩

theorem panelInv_step (s s2 : PanelS) (hinv : PanelInv s)
    (hstep : PanelStep s s2) : PanelInv s2 := by
  obtain ⟨h1, h2⟩ := hinv
  cases hstep with
  | next_page => exact panelInv_next_page s ⟨h1, h2⟩
  | previous_page => exact panelInv_previous_page s ⟨h1, h2⟩
  | add_button name =>
    unfold Panel.add_button
    split
    · exact ⟨h1, h2⟩
    · refine ⟨h1, ?_⟩
      simp only [List.length_append, List.length_cons, List.length_nil]
      exact le_trans h2 (pageCount_mono s.hasParent s.items.length)
  | add_child name =>
    unfold Panel.add_child
    split
    · exact ⟨h1, h2⟩
    · refine ⟨h1, ?_⟩
      simp only [List.length_append, List.length_cons, List.length_nil]
      exact le_trans h2 (pageCount_mono s.hasParent s.items.length)
  | refresh_layout pgs h =>
    have hlen := createPages_length _ _ _ h
    unfold itemsOf at hlen
    simp only [List.length_map] at hlen
    refine ⟨?_, ?_⟩
    · show s.current_page_number < pgs.length
      omega
    · show pgs.length ≤ pageCount s.hasParent s.items.length
      omega
  | key_pressed k t2 eff h =>
    unfold Panel.on_key_pressed at h
    split at h
    · obtain ⟨e1, e2, e3, e4⟩ := handle_key_pressed_frame s k s2 eff h
      exact ⟨by rw [e3, e4]; exact h1, by rw [e1, e2, e3]; exact h2⟩
    · rw [Except.ok.injEq, Prod.mk.injEq] at h
      rw [← h.1]
      exact ⟨h1, h2⟩
  | key_released k t2 eff h =>
    unfold Panel.on_key_released at h
    split at h
    · rcases handle_key_released_frame s k s2 eff h with hrel | hrel | hrel
      · rw [hrel]
        exact panelInv_next_page s ⟨h1, h2⟩
      · rw [hrel]
        exact panelInv_previous_page s ⟨h1, h2⟩
      · obtain ⟨e1, e2, e3, e4⟩ := hrel
        exact ⟨by rw [e3, e4]; exact h1, by rw [e1, e2, e3]; exact h2⟩
    · rw [Except.ok.injEq, Prod.mk.injEq] at h
      rw [← h.1]
      exact ⟨h1, h2⟩

/-- C7 — Current-page-index bound: `0 ≤ current_page_number < len(pages)`
(the lower bound is inherent to `Nat`) holds for a freshly constructed
`Panel` and is preserved by every sequence of operations that touch the page
index or the pages list: `next_page`/`previous_page` (no-ops at the bounds),
runtime `add_button`/`add_child`, `refresh_layout` (which recomputes the
pages after runtime additions; additions never shrink the page count), and
the key handlers. -/
theorem current_page_index_in_bounds (s0 s : PanelS)
    (hinit : PanelInit s0) (hreach : Relation.ReflTransGen PanelStep s0 s) :
    s.current_page_number < s.pages.length := by
  have hinv : PanelInv s := by
    induction hreach with
    | refl => exact panelInv_of_init s0 hinit
    | tail hab hbc ih => exact panelInv_step _ _ ih hbc
  exact hinv.1

/-- Witness for `current_page_index_in_bounds` on a freshly constructed
empty parentless panel after one (no-op) `next_page`. -/
theorem current_page_index_in_bounds_witness :
    (Panel.next_page ⟨false, [], [⟨0, []⟩], 0, true, fun _ => false⟩).current_page_number <
      (Panel.next_page ⟨false, [], [⟨0, []⟩], 0, true, fun _ => false⟩).pages.length :=
  current_page_index_in_bounds ⟨false, [], [⟨0, []⟩], 0, true, fun _ => false⟩ _
    ⟨rfl, rfl⟩
    (Relation.ReflTransGen.single
      (PanelStep.next_page ⟨false, [], [⟨0, []⟩], 0, true, fun _ => false⟩))

/-- C9 — Key-lookup failure is a no-op: for an active panel whose current
page exists but maps no item to the key index (`get_item` raises
`ValueError`), both `on_key_pressed` and `on_key_released` return normally
(`.ok`, the exception is caught at the dispatch boundary and only logged),
the panel state is unchanged, and nothing is rendered or dispatched. -/
theorem key_lookup_failure_is_noop (s : PanelS) (k : Nat)
    (current_page : PanelPage)
    (hactive : s.active = true)
    (hpage : s.pages[s.current_page_number]? = some current_page)
    (hmiss : current_page.get_item k = none) :
    Panel.on_key_pressed s k = .ok (s, none) ∧
    Panel.on_key_released s k = .ok (s, .noneEff) := by
  constructor
  · simp [Panel.on_key_pressed, Panel.handle_key_pressed, hactive, hpage, hmiss]
  · simp [Panel.on_key_released, Panel.handle_key_released, hactive, hpage, hmiss]

/-- Witness for `key_lookup_failure_is_noop`: an active empty panel receives
a press and a release for key 3, which maps to nothing. -/
theorem key_lookup_failure_is_noop_witness :
    Panel.on_key_pressed ⟨false, [], [⟨0, []⟩], 0, true, fun _ => false⟩ 3
      = .ok (⟨false, [], [⟨0, []⟩], 0, true, fun _ => false⟩, none) ∧
    Panel.on_key_released ⟨false, [], [⟨0, []⟩], 0, true, fun _ => false⟩ 3
      = .ok (⟨false, [], [⟨0, []⟩], 0, true, fun _ => false⟩, .noneEff) :=
  key_lookup_failure_is_noop ⟨false, [], [⟨0, []⟩], 0, true, fun _ => false⟩ 3
    ⟨0, []⟩ rfl rfl rfl

theorem lookup_none_not_mem (l : List (Nat × ItemKind)) (a : Nat)
    (h : l.lookup a = none) : a ∉ l.map Prod.fst := by
  induction l with
  | nil => simp
  | cons x xs ih =>
    rcases x with ⟨k, v⟩
    by_cases hk : k = a
    · subst hk
      simp [List.lookup] at h
    · have hbeq1 : (a == k) = false := by
        rw [beq_eq_false_iff_ne]
        exact fun hh => hk hh.symm
      have hbeq2 : (k == a) = false := by
        rw [beq_eq_false_iff_ne]
        exact hk
      have h2 : xs.lookup a = none := by
        simpa only [List.lookup, hbeq1, hbeq2] using h
      simp only [List.map_cons, List.mem_cons]
      rintro (h1 | h1)
      · exact hk h1.symm
      · exact ih h2 h1

/-- C10 — Duplicate-name add is a silent no-op: when the name is already a
key of `self.items`, `add_button` and `add_child` log and return, leaving
`items` (and the whole panel) unchanged and raising nothing; consequently
both operations preserve sibling-name uniqueness of the `items` keys. -/
theorem duplicate_name_add_noop (s : PanelS) (name : Nat)
    (hdup : (s.items.lookup name).isSome) :
    Panel.add_button s name = s ∧ Panel.add_child s name = s ∧
    (∀ (t : PanelS) (m : Nat),
      ((t.items.map Prod.fst).Nodup →
        ((Panel.add_button t m).items.map Prod.fst).Nodup) ∧
      ((t.items.map Prod.fst).Nodup →
        ((Panel.add_child t m).items.map Prod.fst).Nodup)) := by
  refine ⟨?_, ?_, ?_⟩
  · unfold Panel.add_button
    rw [if_pos hdup]
  · unfold Panel.add_child
    rw [if_pos hdup]
  · intro t m
    constructor
    · intro hnodup
      unfold Panel.add_button
      split
      · exact hnodup
      · rename_i hmiss
        have hnone : t.items.lookup m = none :=
          Option.not_isSome_iff_eq_none.mp hmiss
        have hnm := lookup_none_not_mem _ _ hnone
        simp only [List.map_append, List.map_cons, List.map_nil]
        rw [List.nodup_append]
        refine ⟨hnodup, List.nodup_singleton m, ?_⟩
        intro a ha hb
        rw [List.mem_singleton] at hb
        subst hb
        exact hnm ha
    · intro hnodup
      unfold Panel.add_child
      split
      · exact hnodup
      · rename_i hmiss
        have hnone : t.items.lookup m = none :=
          Option.not_isSome_iff_eq_none.mp hmiss
        have hnm := lookup_none_not_mem _ _ hnone
        simp only [List.map_append, List.map_cons, List.map_nil]
        rw [List.nodup_append]
        refine ⟨hnodup, List.nodup_singleton m, ?_⟩
        intro a ha hb
        rw [List.mem_singleton] at hb
        subst hb
        exact hnm ha

/-- Witness for `duplicate_name_add_noop`: adding a second item named `7` to
a panel that already holds one. -/
theorem duplicate_name_add_noop_witness :
    Panel.add_button ⟨false, [(7, .button)], [⟨0, []⟩], 0, true, fun _ => false⟩ 7
      = ⟨false, [(7, .button)], [⟨0, []⟩], 0, true, fun _ => false⟩ ∧
    Panel.add_child ⟨false, [(7, .button)], [⟨0, []⟩], 0, true, fun _ => false⟩ 7
      = ⟨false, [(7, .button)], [⟨0, []⟩], 0, true, fun _ => false⟩ ∧
    (∀ (t : PanelS) (m : Nat),
      ((t.items.map Prod.fst).Nodup →
        ((Panel.add_button t m).items.map Prod.fst).Nodup) ∧
      ((t.items.map Prod.fst).Nodup →
        ((Panel.add_child t m).items.map Prod.fst).Nodup)) :=
  duplicate_name_add_noop ⟨false, [(7, .button)], [⟨0, []⟩], 0, true, fun _ => false⟩ 7
    rfl

theorem applyNav_parentOf (s : NavState) (op : NavOp) :
    (applyNav s op).parentOf = s.parentOf := by
  cases op with
  | handoff p c =>
    simp only [applyNav]
    split <;> rfl
  | goToParent p =>
    simp only [applyNav]
    split
    · split <;> rfl
    · rfl
  | nextPage p => rfl
  | prevPage p => rfl

/-- One completed navigation operation preserves activation exclusivity. -/
theorem applyNav_exactlyOne (s : NavState) (op : NavOp) (hwf : NavWf s)
    (hone : ExactlyOneActive s) : ExactlyOneActive (applyNav s op) := by
  obtain ⟨a, ha, huniq⟩ := hone
  cases op with
  | handoff p c =>
    simp only [applyNav]
    split
    · rename_i hcond
      obtain ⟨hp, hpc⟩ := hcond
      have hne : p ≠ c := hwf c p hpc
      refine ⟨c, ?_, ?_⟩
      · show setActive (setActive s.active c true) p false c = true
        unfold setActive
        rw [if_neg (fun hh => hne hh.symm), if_pos rfl]
      · intro b hb
        replace hb : setActive (setActive s.active c true) p false b = true := hb
        unfold setActive at hb
        by_cases hbp : b = p
        · rw [if_pos hbp] at hb
          exact absurd hb (by simp)
        · rw [if_neg hbp] at hb
          by_cases hbc : b = c
          · exact hbc
          · rw [if_neg hbc] at hb
            have hba := huniq b hb
            have hpa := huniq p hp
            exact absurd (hba.trans hpa.symm) hbp
    · exact ⟨a, ha, huniq⟩
  | goToParent p =>
    simp only [applyNav]
    split
    · rename_i hp
      split
      · rename_i q hq
        have hne : q ≠ p := hwf p q hq
        refine ⟨q, ?_, ?_⟩
        · show setActive (setActive s.active q true) p false q = true
          unfold setActive
          rw [if_neg hne, if_pos rfl]
        · intro b hb
          replace hb : setActive (setActive s.active q true) p false b = true := hb
          unfold setActive at hb
          by_cases hbp : b = p
          · rw [if_pos hbp] at hb
            exact absurd hb (by simp)
          · rw [if_neg hbp] at hb
            by_cases hbq : b = q
            · exact hbq
            · rw [if_neg hbq] at hb
              have hba := huniq b hb
              have hpa := huniq p hp
              exact absurd (hba.trans hpa.symm) hbp
      · exact ⟨a, ha, huniq⟩
    · exact ⟨a, ha, huniq⟩
  | nextPage p => exact ⟨a, ha, huniq⟩
  | prevPage p => exact ⟨a, ha, huniq⟩

/-- C4 — Activation exclusivity: starting from a well-formed tree in which
exactly one panel has `active == True`, any sequence of completed navigation
operations (key-release handoff to a child panel, `go_to_parent`,
`next_page`, `previous_page`) leaves exactly one panel in the whole tree
with `active == True`. -/
theorem activation_exclusivity (s : NavState) (ops : List NavOp)
    (hwf : NavWf s) (hone : ExactlyOneActive s) :
    ExactlyOneActive (ops.foldl applyNav s) := by
  induction ops generalizing s with
  | nil => exact hone
  | cons op ops ih =>
    simp only [List.foldl_cons]
    refine ih (applyNav s op) ?_ (applyNav_exactlyOne s op hwf hone)
    intro i j hij
    rw [applyNav_parentOf] at hij
    exact hwf i j hij

/-- Witness for `activation_exclusivity`: a two-panel tree (child 1 under
root 0, root active) after a handoff to the child followed by a
`go_to_parent`. -/
theorem activation_exclusivity_witness :
    ExactlyOneActive
      ([NavOp.handoff 0 1, NavOp.goToParent 1].foldl applyNav
        ⟨fun i => if i = 1 then some 0 else none, fun i => i == 0⟩) :=
  activation_exclusivity
    ⟨fun i => if i = 1 then some 0 else none, fun i => i == 0⟩
    [NavOp.handoff 0 1, NavOp.goToParent 1]
    (fun i j h => by
      by_cases hi : i = 1
      · subst hi
        simp at h
        omega
      · simp [hi] at h)
    ⟨0, rfl, fun b hb => by simpa using hb⟩

/-- The subscription list a sequence of `subscribe` calls builds for a topic:
all registrations of that topic, in registration order, appended after
whatever the starting bus already held. -/
theorem mkBus_go {U D R : Type} (bus : EventBus U D R)
    (regs : List (Registration U D R)) (et : EventType) :
    (regs.foldl (fun b r => b.subscribe r.user r.topic r.callback) bus).subscribers et
      = bus.subscribers et
        ++ (regs.filter (fun r => r.topic == et)).map
            (fun r => (⟨r.user, r.callback⟩ : UserCallback U D R)) := by
  induction regs generalizing bus with
  | nil => simp
  | cons r rs ih =>
    simp only [List.foldl_cons, List.filter_cons]
    rw [ih]
    by_cases h : r.topic = et
    · have hbeq : (r.topic == et) = true := by
        rw [beq_iff_eq]
        exact h
      simp [EventBus.subscribe, h, hbeq, List.append_assoc]
    · have hbeq : (r.topic == et) = false := by
        rw [beq_eq_false_iff_ne]
        exact h
      have hne : et ≠ r.topic := fun hh => h hh.symm
      simp [EventBus.subscribe, hbeq, hne]

theorem mkBus_subscribers {U D R : Type} (regs : List (Registration U D R))
    (et : EventType) :
    (mkBus regs).subscribers et
      = (regs.filter (fun r => r.topic == et)).map
          (fun r => (⟨r.user, r.callback⟩ : UserCallback U D R)) := by
  unfold mkBus
  rw [mkBus_go]
  simp [EventBus.empty]

theorem find?_filter_eq_head? {U D R : Type} (l : List (Registration U D R))
    (p q : Registration U D R → Bool) :
    (l.filter p).find? q = (l.filter (fun r => p r && q r)).head? := by
  induction l with
  | nil => rfl
  | cons r rs ih =>
    cases hp : p r <;> cases hq : q r <;>
      simp [List.filter_cons, List.find?, hp, hq, ih]

/-- C5 — Addressed dispatch determinism: for every subscription state
(modelled as the bus built from a registration sequence), `send_event`
invokes only records whose recipient equals `user` and which were registered
under exactly this topic, and returns the return value of the first such
registration in registration order (`none` when there is none); `publish` on
the same topic invokes exactly the handlers registered under that topic, in
registration order, regardless of recipient — in particular no handler
registered under a different topic or, for `send_event`, a different
recipient, is ever invoked. -/
theorem addressed_dispatch_determinism {U D R : Type} [DecidableEq U]
    (regs : List (Registration U D R)) (user : U) (topic : EventType)
    (data : Option D) :
    (∀ uc ∈ (mkBus regs).sendEventInvoked user topic,
        uc.user = user ∧ ∃ r ∈ regs, r.topic = topic ∧
          uc = ⟨r.user, r.callback⟩) ∧
    ((mkBus regs).send_event user topic data
      = ((regs.filter (fun r => r.topic == topic && r.user == user)).head?).map
          (fun r => r.callback data)) ∧
    ((mkBus regs).publishInvoked topic
      = (regs.filter (fun r => r.topic == topic)).map
          (fun r => (⟨r.user, r.callback⟩ : UserCallback U D R))) := by
  refine ⟨?_, ?_, ?_⟩
  · intro uc hmem
    unfold EventBus.sendEventInvoked at hmem
    rw [mkBus_subscribers] at hmem
    rcases hfind : ((regs.filter (fun r => r.topic == topic)).map
        (fun r => (⟨r.user, r.callback⟩ : UserCallback U D R))).find?
        (fun uc => uc.user == user) with _ | uc2
    · rw [hfind] at hmem
      simp at hmem
    · rw [hfind] at hmem
      simp only [Option.toList_some, List.mem_singleton] at hmem
      subst hmem
      have hpred := List.find?_some hfind
      have hmem2 := List.mem_of_find?_eq_some hfind
      rw [List.mem_map] at hmem2
      obtain ⟨r, hr, rfl⟩ := hmem2
      rw [List.mem_filter] at hr
      refine ⟨?_, r, hr.1, ?_, rfl⟩
      · have hb : (r.user == user) = true := hpred
        exact eq_of_beq hb
      · exact eq_of_beq hr.2
  · unfold EventBus.send_event
    rw [mkBus_subscribers, List.find?_map]
    rw [show ((fun uc : UserCallback U D R => uc.user == user)
        ∘ (fun r : Registration U D R => (⟨r.user, r.callback⟩ : UserCallback U D R)))
        = fun r : Registration U D R => r.user == user from rfl]
    rw [find?_filter_eq_head? regs (fun r => r.topic == topic)
      (fun r => r.user == user)]
    rw [Option.map_map]
    rfl
  · unfold EventBus.publishInvoked
    exact mkBus_subscribers regs topic

/-- C8 — Plugin isolation: a plugin directory whose manifest names an
`entry_point` module that cannot be resolved (the import raises, or the
reference yields no class so instantiation is skipped) is loaded as a
complete no-op — `discover_and_load` completes without raising and the
resulting state (mounted panels, wired event hooks, loaded-plugins list) is
identical to the run in which that directory is absent, so every other
plugin in the same directory still loads exactly as before.  The failure
happens in `_instantiate_plugin`, before any mounting, so no partial
mutation survives. -/
theorem plugin_isolation (env : PluginEnv) (bad : PluginDirM)
    (md : PluginMetadataM) (hman : bad.manifest = some (.ok md))
    (hmiss : (∃ e, resolveEntryPoint env md.entry_point = .error e) ∨
             resolveEntryPoint env md.entry_point = .ok none) :
    (∀ st, loadPluginDir env st bad = st) ∧
    (∀ (st : PMState) (dirs1 dirs2 : List PluginDirM),
      discoverAndLoad env (dirs1 ++ bad :: dirs2) st
        = discoverAndLoad env (dirs1 ++ dirs2) st) := by
  have hload : ∀ st, loadPluginDir env st bad = st := by
    intro st
    unfold loadPluginDir
    rw [hman]
    rcases hmiss with ⟨e, he⟩ | he <;> simp [he]
  refine ⟨hload, ?_⟩
  intro st dirs1 dirs2
  unfold discoverAndLoad
  rw [List.foldl_append, List.foldl_append, List.foldl_cons, hload]

/-- Witness for `plugin_isolation`: an empty module table, a plugin whose
`entry_point` is `missing:Cls`. -/
theorem plugin_isolation_witness :
    (∀ st, loadPluginDir ⟨[], fun _ => false, fun _ => none⟩ st
      ⟨"bad", some (.ok ⟨"badplugin", "missing:Cls", [], []⟩)⟩ = st) ∧
    (∀ (st : PMState) (dirs1 dirs2 : List PluginDirM),
      discoverAndLoad ⟨[], fun _ => false, fun _ => none⟩
          (dirs1 ++ ⟨"bad", some (.ok ⟨"badplugin", "missing:Cls", [], []⟩)⟩ :: dirs2) st
        = discoverAndLoad ⟨[], fun _ => false, fun _ => none⟩ (dirs1 ++ dirs2) st) :=
  plugin_isolation ⟨[], fun _ => false, fun _ => none⟩
    ⟨"bad", some (.ok ⟨"badplugin", "missing:Cls", [], []⟩)⟩
    ⟨"badplugin", "missing:Cls", [], []⟩ rfl
    (Or.inl ⟨"ModuleNotFoundError", rfl⟩)

end DeckPilot
